import Mathlib

/-!
Verification of the image-to-WebP batch converter.

The program under study is a single Python module with three parts:
* `should_use_low_compression` — the quality policy (filename keywords, pixel count),
* `convert_image_to_webp` — one decode / mode-normalise / encode step with a
  catch-all error boundary,
* `process_directory` — the scanner/scheduler: collect matching files, compute
  output paths, create output directories, skip up-to-date outputs, dispatch
  conversions and tally successes.

Filenames are modelled as `List Char` (Python strings), paths as lists of path
components, mtimes as `Int`.  The external codec (PIL) is modelled by a mode
enumeration plus explicit failure injection points; the worker pool is modelled
by the order-insensitive tally it computes.
-/

namespace ImageToWebP

/-- Python `str.lower()` on a filename (character-wise lowering). -/
def lowerStr (s : List Char) : List Char := s.map Char.toLower

/-- Python `str.upper()` on an extension (character-wise raising). -/
def upperStr (s : List Char) : List Char := s.map Char.toUpper

/-! ## Quality policy (`should_use_low_compression`) -/

/-- The keyword list `thumbnail_indicators` from the source. -/
def thumbnail_indicators : List (List Char) :=
  [String.toList "thumb", String.toList "thumbnail", String.toList "banner",
   String.toList "hero", String.toList "large", String.toList "cover",
   String.toList "featured"]

/-- `should_use_low_compression(filename, img_width, img_height)`:
true iff the lowercased filename contains a keyword (substring test) or the
pixel count exceeds `800 * 600`. -/
def should_use_low_compression (filename : List Char) (img_width img_height : Nat) : Bool :=
  let filename_lower := lowerStr filename
  (thumbnail_indicators.any fun ind => decide (ind <:+: filename_lower))
    || decide (img_width * img_height > 800 * 600)

/-- The two quality tiers of the spec; the source encodes HIGH as the boolean
`True` returned by `should_use_low_compression`. -/
inductive Tier
  | STANDARD
  | HIGH
  deriving DecidableEq

/-- The tier assigned to a file: HIGH exactly when the source function
returns `True`. -/
def decideTier (filename : List Char) (w h : Nat) : Tier :=
  if should_use_low_compression filename w h then Tier.HIGH else Tier.STANDARD

/-- The numeric quality picked by the converter (source: the
`if should_use_low_compression` branch choosing `low_compression_quality`
over `default_quality`). -/
def chosenQuality (filename : List Char) (w h : Nat)
    (default_quality low_compression_quality : Nat) : Nat :=
  if should_use_low_compression filename w h then low_compression_quality
  else default_quality

/-! ## PIL images and the converter -/

/-- The PIL image modes relevant to decoding. -/
inductive PILMode
  | one | L | LA | La | P | PA | RGB | RGBA | RGBa | CMYK | YCbCr | I | F
  deriving DecidableEq

/-- A decoded image: its mode, pixel dimensions, and whether the metadata
dictionary `img.info` declares a `transparency` entry. -/
structure PILImage where
  mode : PILMode
  width : Nat
  height : Nat
  transparencyInInfo : Bool
  deriving DecidableEq

/-- The converter's transparency test (source line
`has_alpha = img.mode in ('RGBA', 'LA') or (img.mode == 'P' and 'transparency' in img.info)`). -/
def has_alpha (img : PILImage) : Bool :=
  (img.mode == PILMode.RGBA || img.mode == PILMode.LA)
    || (img.mode == PILMode.P && img.transparencyInInfo)

/-- `img.convert(m)`: the codec re-expresses the pixel data in mode `m`. -/
def pilConvert (img : PILImage) (m : PILMode) : PILImage := { img with mode := m }

/-- The mode normalisation `convert_image_to_webp` performs before saving:
alpha branch converts anything that is not RGBA to RGBA; the other branch
converts palette images, and then any non-RGB mode, to RGB. -/
def convertedImage (img : PILImage) : PILImage :=
  if has_alpha img then
    if img.mode ≠ PILMode.RGBA then pilConvert img PILMode.RGBA else img
  else
    if img.mode == PILMode.P then pilConvert img PILMode.RGB
    else if img.mode ≠ PILMode.RGB then pilConvert img PILMode.RGB else img

/-- Modelled from the spec: the external codec's mode semantics (PIL, which is
not part of this repository).  Per PIL's documented mode list the modes whose
pixel layout carries an alpha band are `LA`, `La`, `PA`, `RGBA` and `RGBa`.
Used only to state the spec's phrase "the decoded image's native mode carries
an alpha channel". -/
def specModeCarriesAlpha : PILMode → Bool
  | PILMode.LA | PILMode.La | PILMode.PA | PILMode.RGBA | PILMode.RGBa => true
  | _ => false

/-- The spec's transparency predicate: an alpha-bearing native mode, or a
palette image whose metadata declares a transparency index. -/
def specHasAlpha (img : PILImage) : Bool :=
  specModeCarriesAlpha img.mode || (img.mode == PILMode.P && img.transparencyInInfo)

/-- Whether the encoded WebP output reports an alpha channel: the codec
preserves alpha exactly for an RGBA save and emits none for an RGB save. -/
def outputReportsAlpha (img : PILImage) : Bool :=
  (convertedImage img).mode == PILMode.RGBA

/-- The arguments of the `img.save(output_path, 'WEBP', ...)` call: mode of the
saved image, numeric quality, compression method, and the `lossless` keyword
(`some false` in the alpha branch, omitted — `none` — in the RGB branch). -/
structure EncodeCall where
  mode : PILMode
  quality : Nat
  method : Nat
  lossless : Option Bool
  deriving DecidableEq

/-- What `img.save` does in a given run: succeed, raise before creating the
output file, or raise after (partially) writing it. -/
inductive SaveOutcome
  | ok
  | failClean (msg : List Char)
  | failPartial (msg : List Char)

/-- One invocation's environment: the filename (`input_path.name`), the result
of `Image.open` (decoded image or raised exception message), the behaviour of
`img.save`, and the results of the two `stat().st_size` calls. -/
structure ConvEnv where
  inputName : List Char
  decoded : Except (List Char) PILImage
  save : SaveOutcome
  inSize : Except (List Char) Nat
  outSize : Except (List Char) Nat

/-- The result of one converter call together with its observable side effects:
the returned boolean, the failure message printed from the `except` branch,
how many files were created at the output path, and the encode call made. -/
structure ConvOutcome where
  succeeded : Bool
  cause : Option (List Char)
  writeCount : Nat
  encoded : Option EncodeCall
  deriving DecidableEq

/-- The message of Python's `ZeroDivisionError`, raised by
`1 - new_size / original_size` when the input's byte size is zero. -/
def zeroDivisionMsg : List Char := String.toList "division by zero"

/-- `convert_image_to_webp(input_path, output_path, default_quality,
low_compression_quality)`.  The whole body is wrapped in
`try ... except Exception`, so every failure injected by the environment turns
into a `False` return with the exception's message; nothing propagates. -/
def convert_image_to_webp (env : ConvEnv)
    (default_quality low_compression_quality : Nat) : ConvOutcome :=
  match env.decoded with
  | Except.error m => { succeeded := false, cause := some m, writeCount := 0, encoded := none }
  | Except.ok img =>
    let quality := chosenQuality env.inputName img.width img.height
      default_quality low_compression_quality
    let img2 := convertedImage img
    let call : EncodeCall :=
      if has_alpha img then
        { mode := img2.mode, quality := quality, method := 6, lossless := some false }
      else
        { mode := img2.mode, quality := quality, method := 6, lossless := none }
    match env.save with
    | SaveOutcome.failClean m =>
        { succeeded := false, cause := some m, writeCount := 0, encoded := some call }
    | SaveOutcome.failPartial m =>
        { succeeded := false, cause := some m, writeCount := 1, encoded := some call }
    | SaveOutcome.ok =>
      match env.inSize with
      | Except.error m =>
          { succeeded := false, cause := some m, writeCount := 1, encoded := some call }
      | Except.ok original_size =>
        match env.outSize with
        | Except.error m =>
            { succeeded := false, cause := some m, writeCount := 1, encoded := some call }
        | Except.ok _ =>
          if original_size = 0 then
            { succeeded := false, cause := some zeroDivisionMsg, writeCount := 1,
              encoded := some call }
          else
            { succeeded := true, cause := none, writeCount := 1, encoded := some call }

/-! ## Scanner (`process_directory`, file collection) -/

/-- The `supported_formats` set from the source (GIF deliberately absent). -/
def supported_formats : List (List Char) :=
  [String.toList ".jpg", String.toList ".jpeg", String.toList ".png",
   String.toList ".bmp", String.toList ".tiff", String.toList ".tif"]

/-- `root_dir.rglob('*' + ext)` matches a filename iff `ext` is a literal
suffix of it (the `*` wildcard absorbs any prefix). -/
def globMatches (ext name : List Char) : Bool := decide (ext <:+ name)

/-- Whether the collection loop picks up a filename: the source runs one
`rglob` per extension and one per its `.upper()` form, so a name is collected
iff some supported extension matches it as-is or fully uppercased.  (No name
can match two of the twelve patterns, so the per-pattern union is, up to
order, this filter.) -/
def scannerMatches (name : List Char) : Bool :=
  supported_formats.any fun ext =>
    globMatches ext name || globMatches (upperStr ext) name

/-- Claim-side comparator, following the spec's words: the file's extension
"compared case-insensitively is one of `{jpg, jpeg, png, bmp, tiff, tif}`",
formalised as: the lowercased filename ends with one of the (lowercase)
supported extensions. -/
def specExtMatchesCI (name : List Char) : Bool :=
  supported_formats.any fun ext => decide (ext <:+ lowerStr name)

/-- Claim-side comparator: the filename has extension `.gif` in any letter
case, i.e. its lowercased form ends with `.gif`. -/
def specIsGifCI (name : List Char) : Bool :=
  decide (String.toList ".gif" <:+ lowerStr name)

/-! ## Output paths -/

/-- The stem kept by `Path.with_suffix`: drop the pathlib suffix, i.e. the
part from the last dot on, provided that dot exists, is not the first
character of the name and is not its last character. -/
def removeExt (name : List Char) : List Char :=
  let post := name.reverse.takeWhile fun c => c ≠ '.'
  if 0 < post.length ∧ post.length + 1 < name.length then
    name.take (name.length - post.length - 1)
  else name

/-- `relative_path.with_suffix('.webp')` applied to the filename component. -/
def withWebpExt (name : List Char) : List Char :=
  removeExt name ++ String.toList ".webp"

/-! ## Scheduler (`process_directory`) -/

/-- What one dispatched future does when the result loop reaches it:
`future.result()` returns a boolean, or raises an exception. -/
inductive TaskOutcome
  | finished (b : Bool)
  | raised (msg : List Char)
  deriving DecidableEq

/-- One file under `root_dir`: its relative directory components, its filename,
its input mtime, and what its conversion task would do if dispatched. -/
structure FileEntry where
  relDirs : List (List Char)
  name : List Char
  inMtime : Int
  outcome : TaskOutcome
  deriving DecidableEq

/-- The filesystem as seen by the skip check: whether a path exists and its
mtime.  Paths are component lists. -/
structure FS where
  present : List (List Char) → Bool
  mtime : List (List Char) → Int

/-- The collection step: all files under the root whose name one of the glob
patterns matches. -/
def scanFiles (allFiles : List FileEntry) : List FileEntry :=
  allFiles.filter fun f => scannerMatches f.name

/-- The directory of a file's computed output path:
`(output_base_dir / relative_path).parent`. -/
def outputDir (output_base_dir : List (List Char)) (f : FileEntry) :
    List (List Char) :=
  output_base_dir ++ f.relDirs

/-- The computed output path:
`output_base_dir / relative_path.with_suffix('.webp')`. -/
def outputPath (output_base_dir : List (List Char)) (f : FileEntry) :
    List (List Char) :=
  outputDir output_base_dir f ++ [withWebpExt f.name]

/-- The skip check (source: `output_path.exists() and
output_path.stat().st_mtime > input_path.stat().st_mtime`). -/
def skipCheck (fs : FS) (output_base_dir : List (List Char)) (f : FileEntry) :
    Bool :=
  fs.present (outputPath output_base_dir f)
    && decide (fs.mtime (outputPath output_base_dir f) > f.inMtime)

/-- The scheduler's loop state: every directory handed to
`mkdir(parents=True, exist_ok=True)` so far, and the dispatched tasks in
submission order. -/
structure SchedState where
  created : List (List (List Char))
  tasks : List FileEntry
  deriving DecidableEq

/-- One iteration of the submission loop: create the output directory, then
either skip the file or dispatch it.  The `mkdir` comes first, exactly as in
the source. -/
def schedStep (fs : FS) (output_base_dir : List (List Char))
    (st : SchedState) (f : FileEntry) : SchedState :=
  let st1 : SchedState := { st with created := st.created ++ [outputDir output_base_dir f] }
  if skipCheck fs output_base_dir f then st1
  else { st1 with tasks := st1.tasks ++ [f] }

/-- The whole submission loop over the collected files. -/
def schedule (fs : FS) (output_base_dir : List (List Char))
    (files : List FileEntry) : SchedState :=
  files.foldl (schedStep fs output_base_dir) { created := [], tasks := [] }

/-- The tally contribution of one completed future: the result loop increments
on `future.result()` returning `True` and counts nothing on `False` or on a
raised exception (caught by its `except` clause). -/
def successIncrement : TaskOutcome → Nat
  | TaskOutcome.finished true => 1
  | _ => 0

/-- The `as_completed` result loop: runs over every dispatched task and
accumulates `successful_conversions`.  Completion order does not matter to the
sum, so submission order is used. -/
def tallyLoop (tasks : List FileEntry) : Nat :=
  tasks.foldl (fun n f => n + successIncrement f.outcome) 0

/-- `process_directory(root_dir, output_base_dir, ...)`, returning
`(successful_conversions, len(image_files))`. -/
def process_directory (fs : FS) (output_base_dir : List (List Char))
    (allFiles : List FileEntry) : Nat × Nat :=
  (tallyLoop (schedule fs output_base_dir (scanFiles allFiles)).tasks,
   (scanFiles allFiles).length)

/-! ## Concrete instances used in counterexamples and witnesses -/

/-- A palette-with-alpha image: its PIL mode carries an alpha band, but it is
neither RGBA nor LA nor a `P` image with a transparency entry. -/
def imgPA : PILImage :=
  { mode := PILMode.PA, width := 5, height := 5, transparencyInInfo := false }

/-- A plain opaque RGB image. -/
def imgRGB : PILImage :=
  { mode := PILMode.RGB, width := 10, height := 10, transparencyInInfo := false }

/-- An environment whose `img.save` raises after creating the output file. -/
def envPartial : ConvEnv :=
  { inputName := String.toList "a.jpg", decoded := Except.ok imgRGB,
    save := SaveOutcome.failPartial (String.toList "disk full"),
    inSize := Except.ok 100, outSize := Except.ok 50 }

/-- An environment in which every step succeeds. -/
def envOK : ConvEnv :=
  { inputName := String.toList "a.jpg", decoded := Except.ok imgRGB,
    save := SaveOutcome.ok, inSize := Except.ok 100, outSize := Except.ok 50 }

/-- A filesystem on which every output path exists with mtime 10. -/
def fsAlways : FS := { present := fun _ => true, mtime := fun _ => 10 }

/-- A filesystem on which no output path exists. -/
def fsNone : FS := { present := fun _ => false, mtime := fun _ => 0 }

/-- The default output base directory of the program. -/
def outBaseDemo : List (List Char) := [String.toList "Processed_Images"]

/-- A matched file that `fsAlways` makes the scheduler skip (output present,
output mtime 10 > input mtime 0). -/
def skipFileEntry : FileEntry :=
  { relDirs := [], name := String.toList "a.jpg", inMtime := 0,
    outcome := TaskOutcome.finished true }

/-- A matched file in a subdirectory that `fsNone` lets through the skip
check. -/
def freshFileEntry : FileEntry :=
  { relDirs := [String.toList "sub"], name := String.toList "b.png", inMtime := 5,
    outcome := TaskOutcome.finished true }

/-- A valid conversion task. -/
def okFileA : FileEntry :=
  { relDirs := [], name := String.toList "a.jpg", inMtime := 0,
    outcome := TaskOutcome.finished true }

/-- Another valid conversion task. -/
def okFileB : FileEntry :=
  { relDirs := [], name := String.toList "b.png", inMtime := 0,
    outcome := TaskOutcome.finished true }

/-- A corrupt input: its task raises instead of returning a result. -/
def badFile : FileEntry :=
  { relDirs := [], name := String.toList "c.bmp", inMtime := 0,
    outcome := TaskOutcome.raised (String.toList "cannot identify image file") }

/-! ## Helper lemmas -/

theorem suffix_of_suffix_of_length_le {l₁ l₂ n : List Char}
    (h₁ : l₁ <:+ n) (h₂ : l₂ <:+ n) (h : l₁.length ≤ l₂.length) : l₁ <:+ l₂ := by
  rcases  List.suffix_or_suffix_of_suffix h₁ h₂ with h' | h'
  · exact h'
  · rw [h'.eq_of_length_le h]

theorem not_suffix_append_of_short {p w : List Char} (hlen : p.length ≤ w.length)
    (hp : ¬ p <:+ w) (x : List Char) : ¬ p <:+ x ++ w := fun h =>
  hp (suffix_of_suffix_of_length_le h (List.suffix_append x w) hlen)

theorem schedule_foldl_eq (fs : FS) (ob : List (List Char))
    (files : List FileEntry) : ∀ st : SchedState,
    files.foldl (schedStep fs ob) st =
      { created := st.created ++ files.map (outputDir ob),
        tasks := st.tasks ++ files.filter fun f => !skipCheck fs ob f } := by
  induction files with
  | nil => intro st; simp
  | cons f rest ih =>
    intro st
    rw [List.foldl_cons, ih]
    by_cases h : skipCheck fs ob f = true
    · simp [schedStep, h, List.filter_cons]
    · simp [schedStep, h, List.filter_cons]

theorem schedule_tasks_eq (fs : FS) (ob : List (List Char))
    (files : List FileEntry) :
    (schedule fs ob files).tasks = files.filter fun f => !skipCheck fs ob f := by
  rw [schedule, schedule_foldl_eq]
  simp

theorem schedule_created_eq (fs : FS) (ob : List (List Char))
    (files : List FileEntry) :
    (schedule fs ob files).created = files.map (outputDir ob) := by
  rw [schedule, schedule_foldl_eq]
  simp

theorem successIncrement_eq (o : TaskOutcome) :
    successIncrement o = if o == TaskOutcome.finished true then 1 else 0 := by
  cases o with
  | finished b => cases b <;> rfl
  | raised m => rfl

theorem tally_foldl (tasks : List FileEntry) :
    ∀ n : Nat, tasks.foldl (fun n f => n + successIncrement f.outcome) n
      = n + tasks.countP fun f => f.outcome == TaskOutcome.finished true := by
  induction tasks with
  | nil => intro n; simp
  | cons f rest ih =>
    intro n
    rw [List.foldl_cons, ih, List.countP_cons, successIncrement_eq]
    by_cases h : f.outcome == TaskOutcome.finished true
    · simp [h]; omega
    · simp [h]

theorem tallyLoop_eq_countP (tasks : List FileEntry) :
    tallyLoop tasks = tasks.countP fun f => f.outcome == TaskOutcome.finished true := by
  simpa [tallyLoop] using tally_foldl tasks 0

theorem decideTier_high_iff (filename : List Char) (w h : Nat) :
    decideTier filename w h = Tier.HIGH ↔
      should_use_low_compression filename w h = true := by
  unfold decideTier
  by_cases hb : should_use_low_compression filename w h <;> simp [hb]

theorem should_use_iff (filename : List Char) (w h : Nat) :
    should_use_low_compression filename w h = true ↔
      ((∃ ind ∈ thumbnail_indicators, ind <:+: lowerStr filename)
        ∨ 480000 < w * h) := by
  simp only [should_use_low_compression, Bool.or_eq_true, List.any_eq_true,
    decide_eq_true_eq, gt_iff_lt, Nat.reduceMul]

theorem supported_lower_eq : ∀ ext ∈ supported_formats,
    lowerStr ext = ext ∧ lowerStr (upperStr ext) = ext := by decide

theorem scanner_sound {name : List Char} (h : scannerMatches name = true) :
    specExtMatchesCI name = true := by
  simp only [scannerMatches, List.any_eq_true, Bool.or_eq_true, globMatches,
    decide_eq_true_eq] at h
  obtain ⟨ext, hext, hor⟩ := h
  simp only [specExtMatchesCI, List.any_eq_true, decide_eq_true_eq]
  refine ⟨ext, hext, ?_⟩
  obtain ⟨h1, h2⟩ := supported_lower_eq ext hext
  rcases hor with h' | h'
  · have h3 := h'.map Char.toLower
    rw [← h1]
    simpa [lowerStr] using h3
  · have h3 := h'.map Char.toLower
    rw [← h2]
    simpa [lowerStr, upperStr] using h3

theorem scanner_no_gif {name : List Char} (hgif : specIsGifCI name = true) :
    scannerMatches name = false := by
  cases hs : scannerMatches name
  · rfl
  · exfalso
    have hspec := scanner_sound hs
    simp only [specExtMatchesCI, List.any_eq_true, decide_eq_true_eq] at hspec
    obtain ⟨ext, hext, hsuf⟩ := hspec
    simp only [specIsGifCI, decide_eq_true_eq] at hgif
    have hlen : ∀ e ∈ supported_formats,
        (String.toList ".gif").length ≤ e.length := by decide
    have hcomp := suffix_of_suffix_of_length_le hgif hsuf (hlen ext hext)
    have hno : ∀ e ∈ supported_formats, ¬ (String.toList ".gif" <:+ e) := by decide
    exact hno ext hext hcomp

/-! ## Claim theorems -/

/-- C1: the quality policy is total and deterministic, returns HIGH iff the
lowercased filename contains one of the seven indicator substrings or the
pixel count exceeds 480000 (`decide("x.png", 800, 600)` is STANDARD and
`decide("x.png", 801, 600)` is HIGH), and with the default qualities the
converter's encode call uses 85 for HIGH and 75 for STANDARD. -/
theorem c1_quality_policy :
    (∀ (filename : List Char) (w h : Nat),
        (decideTier filename w h = Tier.HIGH ↔
          ((∃ ind ∈ thumbnail_indicators, ind <:+: lowerStr filename)
            ∨ 480000 < w * h))
        ∧ chosenQuality filename w h 75 85
            = (if decideTier filename w h = Tier.HIGH then 85 else 75))
    ∧ (∀ (nm : List Char) (img : PILImage) (sv : SaveOutcome)
        (isz osz : Except (List Char) Nat),
        (convert_image_to_webp ⟨nm, Except.ok img, sv, isz, osz⟩ 75 85).encoded
          = some { mode := (convertedImage img).mode,
                   quality := chosenQuality nm img.width img.height 75 85,
                   method := 6,
                   lossless := if has_alpha img then some false else none })
    ∧ decideTier (String.toList "x.png") 800 600 = Tier.STANDARD
    ∧ decideTier (String.toList "x.png") 801 600 = Tier.HIGH := by
  refine ⟨?_, ?_, by decide, by decide⟩
  · intro filename w h
    constructor
    · rw [decideTier_high_iff]
      exact should_use_iff filename w h
    · unfold chosenQuality decideTier
      by_cases hb : should_use_low_compression filename w h <;> simp [hb]
  · intro nm img sv isz osz
    by_cases ha : has_alpha img <;>
      cases sv <;> cases isz <;> cases osz <;>
        simp [convert_image_to_webp, ha] <;>
        split <;> rfl

/-- C4 counterexample: a decoded image in PIL mode `PA` (palette with alpha)
has a native mode that carries an alpha channel, yet the converter's
transparency test is false for it, and the encoded output reports no alpha
channel — refuting both the "exactly when" and the "alpha-bearing input
yields alpha-bearing output" parts of the claim. -/
theorem c4_counterexample :
    specHasAlpha imgPA = true ∧ has_alpha imgPA = false
      ∧ outputReportsAlpha imgPA = false := by decide

/-- C4 amended: transparency is determined to be true exactly when the decoded
image's mode is RGBA or LA, or it is a palette image whose metadata declares a
transparency index (alpha-bearing modes other than RGBA and LA, such as PA,
are treated as opaque); the saved image is normalised to RGBA in the
transparent case and coerced to RGB otherwise, and the output reports an alpha
channel exactly when that test held. -/
theorem c4_transparency_amended (img : PILImage) :
    ((convertedImage img).mode = PILMode.RGBA
      ∨ (convertedImage img).mode = PILMode.RGB)
    ∧ outputReportsAlpha img = has_alpha img
    ∧ (has_alpha img = true ↔
        (img.mode = PILMode.RGBA ∨ img.mode = PILMode.LA
          ∨ (img.mode = PILMode.P ∧ img.transparencyInInfo = true))) := by
  obtain ⟨m, w, h, t⟩ := img
  cases m <;> cases t <;>
    simp [convertedImage, has_alpha, outputReportsAlpha, pilConvert] <;> decide

/-- C5: the converter never throws past its boundary: for every environment
(decode, encode, and size-accounting failures included) it returns a result;
it fails exactly when some step failed, a failure always carries a
human-readable cause, and the returned success is the exhaustive conjunction
of every step having succeeded. -/
theorem c5_no_throw (env : ConvEnv) (dq lq : Nat) :
    ((convert_image_to_webp env dq lq).succeeded = false ↔
      (∃ m, (convert_image_to_webp env dq lq).cause = some m))
    ∧ ((convert_image_to_webp env dq lq).succeeded = true ↔
        ((∃ img, env.decoded = Except.ok img) ∧ env.save = SaveOutcome.ok
          ∧ (∃ n, env.inSize = Except.ok n ∧ n ≠ 0)
          ∧ (∃ k, env.outSize = Except.ok k))) := by
  obtain ⟨nm, dec, sv, isz, osz⟩ := env
  cases dec <;> cases sv <;> cases isz <;> cases osz <;>
    simp [convert_image_to_webp]
  all_goals rename_i n _
  all_goals by_cases hn : n = 0 <;> simp [hn]

/-- C6 counterexample: in an environment where `img.save` raises after
creating the output file, the converter returns a failure yet a (partial)
output file is left visible at the output path — the code has no removal of
partial artifacts, refuting "writes nothing when it returns succeeded:
false". -/
theorem c6_counterexample :
    (convert_image_to_webp envPartial 75 85).succeeded = false
      ∧ (convert_image_to_webp envPartial 75 85).writeCount = 1 := by decide

/-- C6 amended: the converter writes exactly one output file when it returns
succeeded: true, and writes nothing when decoding fails or the save raises
before creating the file; but when the save raises after creating the file
(or a later step fails) the partial/leftover artifact stays visible — it is
only never counted as success. -/
theorem c6_write_amended (env : ConvEnv) (dq lq : Nat) :
    ((convert_image_to_webp env dq lq).succeeded = true →
        (convert_image_to_webp env dq lq).writeCount = 1)
    ∧ ((convert_image_to_webp env dq lq).writeCount = 0
        ∨ (convert_image_to_webp env dq lq).writeCount = 1)
    ∧ (∀ m, env.save = SaveOutcome.failPartial m →
        (convert_image_to_webp env dq lq).succeeded = false)
    ∧ (∀ m, env.decoded = Except.error m →
        (convert_image_to_webp env dq lq).writeCount = 0)
    ∧ (∀ m, env.save = SaveOutcome.failClean m →
        (convert_image_to_webp env dq lq).writeCount = 0) := by
  obtain ⟨nm, dec, sv, isz, osz⟩ := env
  cases dec <;> cases sv <;> cases isz <;> cases osz <;>
    simp [convert_image_to_webp]
  all_goals rename_i n _
  all_goals by_cases hn : n = 0 <;> simp [hn]

/-- C6 amended, witness: in the all-success environment the converter
succeeds and has written exactly one output file. -/
theorem c6_write_amended_witness :
    (convert_image_to_webp envOK 75 85).writeCount = 1 :=
  (c6_write_amended envOK 75 85).1 (by decide)

/-- C2 counterexample: a run over one matched file whose output is already
up to date dispatches no task at all, so zero tasks complete, yet the
returned total is 1 — the total tally is not "incremented exactly once per
completed task". -/
theorem c2_counterexample :
    (schedule fsAlways outBaseDemo (scanFiles [skipFileEntry])).tasks = []
      ∧ process_directory fsAlways outBaseDemo [skipFileEntry] = (0, 1) := by
  decide

/-- C2 amended: the success tally is incremented exactly once for each
dispatched task that completes with True (each dispatched task counted once,
none abandoned), while the total tally counts every matched file — dispatched
plus skipped — rather than only completed tasks; on a run in which every file
is skipped the total therefore equals the skipped file count. -/
theorem c2_tally_amended (fs : FS) (ob : List (List Char))
    (allFiles : List FileEntry) :
    process_directory fs ob allFiles
      = (((scanFiles allFiles).filter fun f => !skipCheck fs ob f).countP
            (fun f => f.outcome == TaskOutcome.finished true),
         (scanFiles allFiles).length)
    ∧ (scanFiles allFiles).length
        = ((scanFiles allFiles).filter fun f => !skipCheck fs ob f).length
          + ((scanFiles allFiles).filter fun f => skipCheck fs ob f).length := by
  constructor
  · unfold process_directory
    rw [schedule_tasks_eq, tallyLoop_eq_countP]
  · induction scanFiles allFiles with
    | nil => simp
    | cons f rest ih =>
      by_cases h : skipCheck fs ob f <;>
        simp [List.filter_cons, h, ih] <;> omega

/-- C7: a matched file is dispatched iff it is not the case that its computed
output path (output base dir / relative path with the extension replaced by
`.webp`) exists with a last-modified timestamp strictly newer than the
input's; equivalently, it is skipped exactly under that conjunction. -/
theorem c7_skip_iff (fs : FS) (ob : List (List Char)) (files : List FileEntry)
    (f : FileEntry) (hf : f ∈ files) :
    f ∈ (schedule fs ob files).tasks ↔
      ¬(fs.present (outputPath ob f) = true
        ∧ f.inMtime < fs.mtime (outputPath ob f)) := by
  rw [schedule_tasks_eq, List.mem_filter]
  simp [hf, skipCheck, not_and]
  rcases hb : fs.present (outputPath ob f) <;> simp [hb]

/-- C7 witness: on a filesystem where no output exists, a matched file is
dispatched. -/
theorem c7_skip_iff_witness :
    freshFileEntry ∈ (schedule fsNone outBaseDemo [freshFileEntry]).tasks :=
  (c7_skip_iff fsNone outBaseDemo [freshFileEntry] freshFileEntry (by simp)).mpr
    (by simp [fsNone])

/-- C8: a dispatched task that raises an exception is tallied like a
structured failure: the loop over completed futures runs to the end, no task
is abandoned, and with every file dispatched, exactly one task raising and
all others returning True the run reports successful = total - 1. -/
theorem c8_fault_isolation (fs : FS) (ob : List (List Char))
    (pre post : List FileEntry) (f : FileEntry) (m : List Char)
    (hscan : ∀ x ∈ pre ++ f :: post, scannerMatches x.name = true)
    (hskip : ∀ x ∈ pre ++ f :: post, skipCheck fs ob x = false)
    (hpre : ∀ x ∈ pre, x.outcome = TaskOutcome.finished true)
    (hpost : ∀ x ∈ post, x.outcome = TaskOutcome.finished true)
    (hf : f.outcome = TaskOutcome.raised m) :
    process_directory fs ob (pre ++ f :: post)
      = ((pre ++ f :: post).length - 1, (pre ++ f :: post).length) := by
  have hscanEq : scanFiles (pre ++ f :: post) = pre ++ f :: post :=
    List.filter_eq_self.mpr hscan
  unfold process_directory
  rw [hscanEq, schedule_tasks_eq, tallyLoop_eq_countP]
  have htasks : ((pre ++ f :: post).filter fun x => !skipCheck fs ob x)
      = pre ++ f :: post :=
    List.filter_eq_self.mpr fun a ha => by simp [hskip a ha]
  rw [htasks, List.countP_append, List.countP_cons]
  have h1 : (pre.countP fun x => x.outcome == TaskOutcome.finished true)
      = pre.length :=
    List.countP_eq_length.mpr fun a ha => by simp [hpre a ha]
  have h2 : (post.countP fun x => x.outcome == TaskOutcome.finished true)
      = post.length :=
    List.countP_eq_length.mpr fun a ha => by simp [hpost a ha]
  rw [h1, h2, hf]
  simp [List.length_append]

/-- C8 witness: three matched never-skipped files of which the middle task
raises give successful = 2 of total = 3. -/
theorem c8_fault_isolation_witness :
    process_directory fsNone outBaseDemo [okFileA, badFile, okFileB] = (2, 3) := by
  have h := c8_fault_isolation fsNone outBaseDemo [okFileA] [okFileB] badFile
    (String.toList "cannot identify image file")
    (by decide) (by decide) (by decide) (by decide) (by decide)
  simpa using h

/-- C9: for every matched file the scheduler hands the output path's parent
directory to `mkdir(parents=True, exist_ok=True)` before the skip check runs,
so the directory is created regardless of whether the file is skipped and of
what its task later does. -/
theorem c9_mkdir_before_skip (fs : FS) (ob : List (List Char))
    (files : List FileEntry) (f : FileEntry) (hf : f ∈ files) :
    outputDir ob f ∈ (schedule fs ob files).created := by
  rw [schedule_created_eq]
  exact List.mem_map_of_mem _ hf

/-- C9 witness: even for a file that the skip check then skips (`fsAlways`
makes every output up to date), its output directory was created. -/
theorem c9_mkdir_before_skip_witness :
    outputDir outBaseDemo skipFileEntry
      ∈ (schedule fsAlways outBaseDemo [skipFileEntry]).created :=
  c9_mkdir_before_skip fsAlways outBaseDemo [skipFileEntry] skipFileEntry
    (by simp)

/-- C3 counterexample: `photo.Jpg` has extension `.Jpg`, case-insensitively
equal to `jpg` and thus in the supported set, yet no glob pattern of the
collection loop matches it (the source only globs the all-lowercase and
all-uppercase spellings) — refuting the "if and only if" of the claim. -/
theorem c3_counterexample :
    specExtMatchesCI (String.toList "photo.Jpg") = true
      ∧ scannerMatches (String.toList "photo.Jpg") = false := by decide

/-- C3 amended: the scanner enumerates only files whose extension is,
case-insensitively, in the supported set, and it does enumerate every file
whose extension is the all-lowercase or the all-uppercase spelling of a
supported extension — but not mixed-case spellings; a file whose extension is
`.gif` in any letter case is never enumerated, hence never scheduled. -/
theorem c3_scanner_amended :
    (∀ name, scannerMatches name = true → specExtMatchesCI name = true)
    ∧ (∀ name, specIsGifCI name = true → scannerMatches name = false)
    ∧ (∀ stem ext, ext ∈ supported_formats →
        scannerMatches (stem ++ ext) = true
          ∧ scannerMatches (stem ++ upperStr ext) = true) := by
  refine ⟨fun name h => scanner_sound h, fun name h => scanner_no_gif h, ?_⟩
  intro stem ext hext
  constructor
  · simp only [scannerMatches, List.any_eq_true, Bool.or_eq_true, globMatches,
      decide_eq_true_eq]
    exact ⟨ext, hext, Or.inl (List.suffix_append _ _)⟩
  · simp only [scannerMatches, List.any_eq_true, Bool.or_eq_true, globMatches,
      decide_eq_true_eq]
    exact ⟨ext, hext, Or.inr (List.suffix_append _ _)⟩

/-- C3 amended, witness: `a.JPG` is enumerated and satisfies the
case-insensitive predicate; `x.jpg` built from a lowercase extension is
enumerated. -/
theorem c3_scanner_amended_witness :
    specExtMatchesCI (String.toList "a.JPG") = true
      ∧ scannerMatches (String.toList "x" ++ String.toList ".jpg") = true :=
  ⟨c3_scanner_amended.1 (String.toList "a.JPG") (by decide),
   (c3_scanner_amended.2.2 (String.toList "x") (String.toList ".jpg")
     (by decide)).1⟩

/-- C10: every output filename produced by the converter ends in `.webp`,
and no filename ending in `.webp` is matched by any of the scanner's glob
patterns, so outputs of a run — even though they live under the scanned
root — are never enumerated as inputs and no feedback loop arises. -/
theorem c10_no_feedback (name : List Char) :
    String.toList ".webp" <:+ withWebpExt name
      ∧ scannerMatches (withWebpExt name) = false := by
  constructor
  · unfold withWebpExt
    exact List.suffix_append _ _
  · unfold scannerMatches withWebpExt
    rw [List.any_eq_false]
    intro ext hext
    fin_cases hext <;>
      simp only [globMatches, Bool.or_eq_true, decide_eq_true_eq, not_or] <;>
      exact ⟨not_suffix_append_of_short (by decide) (by decide) _,
             not_suffix_append_of_short (by decide) (by decide) _⟩

end ImageToWebP
